import Mathlib

/-!
Verification of the SkiStat backend (Node.js/Express + PostgreSQL) against its
natural-language specification.  The relevant handlers and services are shallowly
embedded as pure Lean functions over explicit state:

* `src/routes/runs.js`        — single-run upsert, list, get, soft delete, bulk upload
* `src/services/authService.js` — session issue, refresh-token rotation, pruning
* `src/routes/friends.js`     — invite-code friending, friend runs
* `src/routes/leaderboard.js` — four leaderboard rollups and the season window

SQL rows become Lean structures, tables become lists, `NOW()` becomes an explicit
clock argument (a `Nat` tick for the auth service, a calendar `Timestamp` for run
data), and JS numbers are modelled as `Int` (none of the verified properties
depend on floating-point rounding).  Fallible handlers return `Except ApiErr`,
where `ApiErr` carries the HTTP status and message produced by `errorResponse`.
-/

namespace SkiStat

/-- HTTP error response produced by `errorResponse(res, status, message)`. -/
structure ApiErr where
  status : Nat
  message : String
deriving DecidableEq, Repr

/-- A calendar timestamp: year, month (1-12), day, plus an abstract sub-day
part `frac` standing for the time of day.  `TIMESTAMPTZ` values compare
lexicographically on these components. -/
structure Timestamp where
  year : Int
  month : Nat
  day : Nat
  frac : Nat
deriving DecidableEq, Repr

/-- SQL `<=` on timestamps: lexicographic comparison. -/
def tsLe (a b : Timestamp) : Bool :=
  if a.year < b.year then true
  else if b.year < a.year then false
  else if a.month < b.month then true
  else if b.month < a.month then false
  else if a.day < b.day then true
  else if b.day < a.day then false
  else a.frac ≤ b.frac

/-- `getSeasonStart` from `leaderboard.js`: November 1 of the current year if
the current month is November or December, otherwise November 1 of the previous
year (`new Date(year, 10, 1)` is local midnight, i.e. `frac = 0`). -/
def getSeasonStart (now : Timestamp) : Timestamp :=
  ⟨if 11 ≤ now.month then now.year else now.year - 1, 11, 1, 0⟩

/-- A row of the `runs` table (migration `run.js`).  Numeric metrics are `Int`;
nullable columns are `Option`.  `updatedAt` is maintained by the
`runs_updated_at` trigger on every SQL `UPDATE`. -/
structure RunRow where
  id : Nat
  userId : Nat
  clientId : Nat
  runName : Option String
  resortName : Option String
  startTime : Timestamp
  endTime : Option Timestamp
  distance : Int
  maxSpeed : Int
  averageSpeed : Int
  elevationDrop : Int
  startElevation : Int
  endElevation : Int
  duration : Int
  points : Int
  difficulty : String
  calories : Int
  avgHeartRate : Int
  maxHeartRate : Int
  routeData : Option String
  resortLatitude : Option Int
  resortLongitude : Option Int
  isDeleted : Bool
  updatedAt : Timestamp
deriving DecidableEq, Repr

/-- The validated request body of `POST /v1/runs`.  Fields that the validator
requires (`clientId`, `startTime`, the five metrics, `points`) are present;
optional fields are `Option`.  `routeData` is the already-serialized JSON
payload (the handler stores `JSON.stringify(routeData)` verbatim). -/
structure RunInput where
  clientId : Nat
  startTime : Timestamp
  endTime : Option Timestamp
  runName : Option String
  resortName : Option String
  distance : Int
  maxSpeed : Int
  averageSpeed : Int
  elevationDrop : Int
  startElevation : Option Int
  endElevation : Option Int
  duration : Int
  points : Int
  difficulty : Option String
  calories : Option Int
  avgHeartRate : Option Int
  maxHeartRate : Option Int
  routeData : Option String
  resortLatitude : Option Int
  resortLongitude : Option Int
deriving DecidableEq, Repr

/-- State of the `runs` table; `nextId` models the id generator for inserted
rows. -/
structure RunsState where
  runs : List RunRow
  nextId : Nat
deriving DecidableEq, Repr

/-- The column assignments shared by the UPDATE and INSERT statements of
`POST /v1/runs`: a full overwrite of the mutable fields, applying the JS
defaults `startElevation || 0`, `difficulty || 'Blue'`, `calories || 0`, etc.
The trigger sets `updatedAt` to the statement time. -/
def setFields (inp : RunInput) (now : Timestamp) (r : RunRow) : RunRow :=
  { r with
    runName := inp.runName
    resortName := inp.resortName
    startTime := inp.startTime
    endTime := inp.endTime
    distance := inp.distance
    maxSpeed := inp.maxSpeed
    averageSpeed := inp.averageSpeed
    elevationDrop := inp.elevationDrop
    startElevation := inp.startElevation.getD 0
    endElevation := inp.endElevation.getD 0
    duration := inp.duration
    points := inp.points
    difficulty := inp.difficulty.getD "Blue"
    calories := inp.calories.getD 0
    avgHeartRate := inp.avgHeartRate.getD 0
    maxHeartRate := inp.maxHeartRate.getD 0
    routeData := inp.routeData
    resortLatitude := inp.resortLatitude
    resortLongitude := inp.resortLongitude
    updatedAt := now }

/-- The row inserted by the INSERT branch of `POST /v1/runs` (`is_deleted`
defaults to `false`). -/
def mkRow (uid id : Nat) (inp : RunInput) (now : Timestamp) : RunRow :=
  setFields inp now
    ⟨id, uid, inp.clientId, none, none, ⟨0, 1, 1, 0⟩, none,
     0, 0, 0, 0, 0, 0, 0, 0, "Blue", 0, 0, 0, none, none, none, false, now⟩

/-- `SELECT ... FROM runs WHERE user_id = $1 AND client_id = $2`. -/
def runsFor (st : RunsState) (uid cid : Nat) : List RunRow :=
  st.runs.filter (fun r => r.userId == uid && r.clientId == cid)

/-- Response body of `POST /v1/runs`: `runId`, echoed `clientId`, and whether
the row was created (HTTP 201) rather than updated (HTTP 200). -/
structure UpsertResult where
  runId : Nat
  clientId : Nat
  created : Bool
deriving DecidableEq, Repr

/-- `POST /v1/runs` (`runs.js` lines 13-94): look up by `(user_id, client_id)`;
if a row exists, overwrite its mutable columns in place (every matching row, as
the SQL UPDATE does) and report `created = false`; otherwise insert a fresh row
and report `created = true`. -/
def upsertRun (st : RunsState) (uid : Nat) (inp : RunInput) (now : Timestamp) :
    RunsState × UpsertResult :=
  match runsFor st uid inp.clientId with
  | [] =>
    ({ runs := st.runs ++ [mkRow uid st.nextId inp now], nextId := st.nextId + 1 },
     ⟨st.nextId, inp.clientId, true⟩)
  | e :: _ =>
    ({ st with
       runs := st.runs.map (fun r =>
         if r.userId == uid && r.clientId == inp.clientId then setFields inp now r else r) },
     ⟨e.id, inp.clientId, false⟩)

/-- Insertion step for `sortBy`. -/
def insertLe {α : Type} (le : α → α → Bool) (a : α) : List α → List α
  | [] => [a]
  | b :: bs => if le a b then a :: b :: bs else b :: insertLe le a bs

/-- Insertion sort, modelling SQL `ORDER BY` (the verified properties do not
depend on the order of ties, which SQL leaves unspecified). -/
def sortBy {α : Type} (le : α → α → Bool) : List α → List α
  | [] => []
  | a :: as => insertLe le a (sortBy le as)

/-- `ORDER BY start_time DESC`. -/
def startDesc (a b : RunRow) : Bool := tsLe b.startTime a.startTime

/-- `GET /v1/runs` (`runs.js` lines 99-156): the caller's non-deleted runs,
optionally filtered by resort name and minimum start time, ordered by start
time descending, offset-paginated; the total counts the same filtered set. -/
def listRuns (runs : List RunRow) (uid : Nat) (limit offset : Nat)
    (resort : Option String) (since : Option Timestamp) : List RunRow × Nat :=
  let flt := runs.filter (fun r =>
    r.userId == uid && !r.isDeleted &&
    (match resort with
     | none => true
     | some rn => r.resortName == some rn) &&
    (match since with
     | none => true
     | some s => tsLe s r.startTime))
  (((sortBy startDesc flt).drop offset).take limit, flt.length)

/-- `GET /v1/runs/:id` (`runs.js` lines 161-177): `SELECT * FROM runs WHERE
id = $1 AND user_id = $2 AND is_deleted = false`, 404 when no row matches. -/
def getRun (runs : List RunRow) (uid rid : Nat) : Except ApiErr RunRow :=
  match runs.filter (fun r => r.id == rid && r.userId == uid && !r.isDeleted) with
  | [] => .error ⟨404, "Run not found"⟩
  | r :: _ => .ok r

/-- `DELETE /v1/runs/:id` (`runs.js` lines 182-198): `UPDATE runs SET
is_deleted = true WHERE id = $1 AND user_id = $2 RETURNING id`; 404 only when
no row matched (there is no `is_deleted = false` guard and no dedicated
deletion-timestamp column; the update trigger bumps `updated_at`). -/
def softDeleteRun (st : RunsState) (uid rid : Nat) (now : Timestamp) :
    Except ApiErr RunsState :=
  if (st.runs.filter (fun r => r.id == rid && r.userId == uid)).isEmpty then
    .error ⟨404, "Run not found"⟩
  else
    .ok { st with
          runs := st.runs.map (fun r =>
            if r.id == rid && r.userId == uid then
              { r with isDeleted := true, updatedAt := now }
            else r) }

/-- One element of the `POST /v1/runs/bulk` body.  The bulk route validates
only the array bound, so every field of an item may be absent (`Option`);
absent NOT NULL columns (`client_id`, `start_time`) make the per-item INSERT
fail. -/
structure BulkInput where
  clientId : Option Nat
  startTime : Option Timestamp
  endTime : Option Timestamp
  runName : Option String
  resortName : Option String
  distance : Option Int
  maxSpeed : Option Int
  averageSpeed : Option Int
  elevationDrop : Option Int
  startElevation : Option Int
  endElevation : Option Int
  duration : Option Int
  points : Option Int
  difficulty : Option String
  calories : Option Int
  avgHeartRate : Option Int
  maxHeartRate : Option Int
  resortLatitude : Option Int
  resortLongitude : Option Int
deriving DecidableEq, Repr

/-- Per-item outcome tag of the bulk upload: `created`, `exists`, `error`. -/
inductive ItemStatus where
  | created
  | existsRow
  | errored
deriving DecidableEq, Repr

/-- One entry of the bulk response's `results` array. -/
structure ItemResult where
  clientId : Option Nat
  status : ItemStatus
  serverId : Option Nat
  errMsg : Option String
deriving DecidableEq, Repr

/-- The row inserted by the bulk INSERT: every metric defaulted with `|| 0`,
`difficulty || 'Blue'`, and no `route_data` column at all (stored as null). -/
def mkBulkRow (uid id : Nat) (run : BulkInput) (c : Nat) (t0 : Timestamp)
    (now : Timestamp) : RunRow :=
  ⟨id, uid, c, run.runName, run.resortName, t0, run.endTime,
   run.distance.getD 0, run.maxSpeed.getD 0, run.averageSpeed.getD 0,
   run.elevationDrop.getD 0, run.startElevation.getD 0, run.endElevation.getD 0,
   run.duration.getD 0, run.points.getD 0, run.difficulty.getD "Blue",
   run.calories.getD 0, run.avgHeartRate.getD 0, run.maxHeartRate.getD 0,
   none, run.resortLatitude, run.resortLongitude, false, now⟩

/-- Processing of one bulk item (`runs.js` lines 209-240): when a row for
`(user_id, client_id)` exists the item reports `exists` with that row's id and
nothing is written; otherwise the INSERT runs, and a violated NOT NULL
constraint is caught and recorded as a per-item `error` result. -/
def bulkItem (st : RunsState) (uid : Nat) (run : BulkInput) (now : Timestamp) :
    RunsState × ItemResult :=
  match run.clientId with
  | none => (st, ⟨none, .errored, none, some "null value in column client_id"⟩)
  | some c =>
    match runsFor st uid c with
    | e :: _ => (st, ⟨some c, .existsRow, some e.id, none⟩)
    | [] =>
      match run.startTime with
      | none => (st, ⟨some c, .errored, none, some "null value in column start_time"⟩)
      | some t0 =>
        ({ runs := st.runs ++ [mkBulkRow uid st.nextId run c t0 now],
           nextId := st.nextId + 1 },
         ⟨some c, .created, some st.nextId, none⟩)

/-- Sequential left-to-right processing of the bulk items, threading the table
state and collecting one result per item in input order. -/
def bulkFold (st : RunsState) (uid : Nat) (runs : List BulkInput) (now : Timestamp) :
    RunsState × List ItemResult :=
  match runs with
  | [] => (st, [])
  | r :: rs =>
    let p := bulkItem st uid r now
    let q := bulkFold p.1 uid rs now
    (q.1, p.2 :: q.2)

/-- `POST /v1/runs/bulk` (`runs.js` lines 203-248): the validator rejects the
whole request with a 400 `Validation failed` response unless the `runs` array
has 1 to 50 elements; otherwise every item is processed in order. -/
def upsertBatch (st : RunsState) (uid : Nat) (runs : List BulkInput)
    (now : Timestamp) : Except ApiErr (RunsState × List ItemResult) :=
  if runs.length < 1 ∨ 50 < runs.length then .error ⟨400, "Validation failed"⟩
  else .ok (bulkFold st uid runs now)

/-- A row of the `users` table (the columns the verified routes read). -/
structure User where
  id : Nat
  displayName : String
  inviteCode : Nat
  isBanned : Bool
deriving DecidableEq, Repr

/-- `friendships.status`: `pending`, `accepted`, or `blocked`. -/
inductive FStatus where
  | pending
  | accepted
  | blocked
deriving DecidableEq, Repr

/-- A row of the `friendships` table. -/
structure Friendship where
  userId : Nat
  friendId : Nat
  status : FStatus
deriving DecidableEq, Repr

/-- The read-only data the leaderboard and friend-runs routes query. -/
structure SocialDB where
  users : List User
  friendships : List Friendship
  runs : List RunRow
deriving DecidableEq, Repr

/-- `getFriendIds` from `leaderboard.js` lines 9-17: the caller plus, for each
accepted edge touching the caller, the counterpart
(`CASE WHEN user_id = $1 THEN friend_id ELSE user_id END`). -/
def getFriendIds (db : SocialDB) (uid : Nat) : List Nat :=
  uid :: (db.friendships.filter (fun f =>
    (f.userId == uid || f.friendId == uid) && f.status == FStatus.accepted)).map
    (fun f => if f.userId == uid then f.friendId else f.userId)

/-- One row of the per-user aggregate leaderboards (season points, vert,
distance): user id, display name, `isYou` tag, the aggregated metric, and the
joined run count. -/
structure BoardRow where
  userId : Nat
  displayName : String
  isYou : Bool
  value : Int
  runCount : Nat
deriving DecidableEq, Repr

/-- The LEFT JOIN condition of the three season aggregates:
`r.user_id = u.id AND r.is_deleted = false AND r.start_time >= $2`. -/
def seasonRuns (db : SocialDB) (u : Nat) (s : Timestamp) : List RunRow :=
  db.runs.filter (fun r => r.userId == u && !r.isDeleted && tsLe s r.startTime)

/-- Descending order on the aggregated metric (`ORDER BY ... DESC`). -/
def valueDesc (a b : BoardRow) : Bool := b.value ≤ a.value

/-- The shared shape of the three per-user aggregates (`/season`, `/vert`,
`/distance`): one row per user in the visible set, aggregating `metric` over
that user's non-deleted runs started at or after the season start, ranked by
the aggregate descending. -/
def aggBoard (metric : RunRow → Int) (db : SocialDB) (uid : Nat)
    (now : Timestamp) : List BoardRow :=
  let ids := getFriendIds db uid
  let s := getSeasonStart now
  sortBy valueDesc ((db.users.filter (fun u => ids.contains u.id)).map (fun u =>
    let rs := seasonRuns db u.id s
    ⟨u.id, u.displayName, u.id == uid, (rs.map metric).sum, rs.length⟩))

/-- `GET /v1/leaderboard/season` (`leaderboard.js` lines 22-54): total points
per visible user over the season window. -/
def boardSeason (db : SocialDB) (uid : Nat) (now : Timestamp) : List BoardRow :=
  aggBoard (fun r => r.points) db uid now

/-- `GET /v1/leaderboard/vert` (`leaderboard.js` lines 93-124): total
elevation drop per visible user over the season window. -/
def boardVert (db : SocialDB) (uid : Nat) (now : Timestamp) : List BoardRow :=
  aggBoard (fun r => r.elevationDrop) db uid now

/-- `GET /v1/leaderboard/distance` (`leaderboard.js` lines 129-160): total
distance per visible user over the season window. -/
def boardDistance (db : SocialDB) (uid : Nat) (now : Timestamp) : List BoardRow :=
  aggBoard (fun r => r.distance) db uid now

/-- One row of the `/speed` leaderboard: an individual run joined with its
owner. -/
structure SpeedRow where
  runId : Nat
  userId : Nat
  displayName : String
  isYou : Bool
  maxSpeed : Int
  startTime : Timestamp
deriving DecidableEq, Repr

/-- Descending order on `max_speed`. -/
def speedDesc (a b : SpeedRow) : Bool := b.maxSpeed ≤ a.maxSpeed

/-- `GET /v1/leaderboard/speed` (`leaderboard.js` lines 59-88): individual
non-deleted runs of visible users joined with `users`, ordered by `max_speed`
descending, top 20.  Note: this query applies no `start_time` filter. -/
def boardSpeed (db : SocialDB) (uid : Nat) : List SpeedRow :=
  let ids := getFriendIds db uid
  (sortBy speedDesc ((db.runs.filter (fun r => !r.isDeleted)).flatMap (fun r =>
    (db.users.filter (fun u => u.id == r.userId && ids.contains u.id)).map (fun u =>
      ⟨r.id, u.id, u.displayName, u.id == uid, r.maxSpeed, r.startTime⟩)))).take 20

/-- `GET /v1/friends/:id/runs` (`friends.js` lines 182-227): 403 unless an
accepted edge connects the two users in either orientation; otherwise the
friend's non-deleted runs, newest first, offset-paginated. -/
def listFriendRuns (db : SocialDB) (uid fid : Nat) (limit offset : Nat) :
    Except ApiErr (List RunRow) :=
  if (db.friendships.filter (fun f =>
      ((f.userId == uid && f.friendId == fid) || (f.userId == fid && f.friendId == uid))
      && f.status == FStatus.accepted)).isEmpty then
    .error ⟨403, "Not friends with this user"⟩
  else
    .ok (((sortBy startDesc (db.runs.filter (fun r =>
      r.userId == fid && !r.isDeleted))).drop offset).take limit)

/-- State touched by the friend-invite route. -/
structure FriendState where
  users : List User
  friendships : List Friendship
deriving DecidableEq, Repr

/-- Successful response of `POST /v1/friends/invite/:code`: HTTP status and
the added friend. -/
structure FriendOk where
  status : Nat
  friendId : Nat
  displayName : String
deriving DecidableEq, Repr

/-- The friend cap `MAX_FRIENDS` from `friends.js`. -/
def MAX_FRIENDS : Nat := 50

/-- The accepted-edge count of `friends.js` lines 114-118:
`COUNT(*) WHERE (user_id = $1 OR friend_id = $1) AND status = 'accepted'`. -/
def acceptedCount (fs : List Friendship) (uid : Nat) : Nat :=
  fs.countP (fun f => (f.userId == uid || f.friendId == uid) && f.status == FStatus.accepted)

/-- `POST /v1/friends/invite/:code` (`friends.js` lines 96-154): resolve the
code, reject self-addition, reject at the 50-friend cap, reject any existing
edge in either direction with a status-specific 400 message, else insert an
`accepted` edge and answer 201. -/
def addByInviteCode (st : FriendState) (uid : Nat) (code : Nat) :
    Except ApiErr (FriendState × FriendOk) :=
  match st.users.filter (fun u => u.inviteCode == code) with
  | [] => .error ⟨404, "No user found with that invite code"⟩
  | v :: _ =>
    if v.id == uid then .error ⟨400, "That\x27s your own invite code!"⟩
    else if MAX_FRIENDS ≤ acceptedCount st.friendships uid then
      .error ⟨400, "Friend limit reached (50)"⟩
    else
      match st.friendships.filter (fun f =>
        (f.userId == uid && f.friendId == v.id) || (f.userId == v.id && f.friendId == uid)) with
      | [] =>
        .ok ({ st with friendships := st.friendships ++ [⟨uid, v.id, FStatus.accepted⟩] },
             ⟨201, v.id, v.displayName⟩)
      | f :: _ =>
        match f.status with
        | .accepted => .error ⟨400, "Already friends"⟩
        | .pending => .error ⟨400, "Friend request already pending"⟩
        | .blocked => .error ⟨400, "Unable to send request"⟩

/-- A row of the `refresh_tokens` table.  `token` is the opaque signed token
value (modelled as a fresh `Nat` drawn from the clock, since each issued token
is a distinct string); `createdAt`/`expiresAt` are clock ticks. -/
structure TokenRow where
  id : Nat
  userId : Nat
  token : Nat
  expiresAt : Nat
  createdAt : Nat
deriving DecidableEq, Repr

/-- State of `authService.js`: the `users` and `refresh_tokens` tables plus a
monotone clock supplying `NOW()`, generated row ids and fresh token values. -/
structure AuthState where
  users : List User
  tokens : List TokenRow
  clock : Nat
deriving DecidableEq, Repr

/-- 30 days in seconds: the stored refresh-token lifetime
(`expiresAt.setDate(getDate() + 30)`). -/
def refreshLifetime : Nat := 2592000

/-- The pruning DELETE of `_generateTokens` (`authService.js` lines 190-195):
remove every row of the user that has at least 5 strictly more recently
created rows, i.e. keep the 5 most recently created
(`ORDER BY created_at DESC OFFSET 5`). -/
def pruneTokens (toks : List TokenRow) (uid : Nat) : List TokenRow :=
  toks.filter (fun t =>
    !(t.userId == uid) ||
    decide (toks.countP (fun s => s.userId == uid && decide (t.createdAt < s.createdAt)) < 5))

/-- `_generateTokens` (`authService.js` lines 169-209), a.k.a. `issueSession`:
sign a fresh refresh token, INSERT it with a 30-day expiry, then prune all but
the user's 5 most recently created rows.  Returns the new state and the fresh
token value. -/
def issueSession (st : AuthState) (uid : Nat) : AuthState × Nat :=
  let row : TokenRow := ⟨st.clock, uid, st.clock, st.clock + refreshLifetime, st.clock⟩
  ({ st with tokens := pruneTokens (st.tokens ++ [row]) uid, clock := st.clock + 1 },
   st.clock)

/-- `issueSession` iterated `n` times for the same user. -/
def issueN (n : Nat) (st : AuthState) (uid : Nat) : AuthState :=
  match n with
  | 0 => st
  | m + 1 => issueN m (issueSession st uid).1 uid

/-- The user's refresh-token rows. -/
def tokensFor (st : AuthState) (uid : Nat) : List TokenRow :=
  st.tokens.filter (fun t => t.userId == uid)

/-- A decoded refresh JWT: the raw token value plus the embedded `userId`
claim. -/
structure TokenVal where
  tid : Nat
  userId : Nat
deriving DecidableEq, Repr

/-- `AuthService.refreshToken` (`authService.js` lines 112-142): require a
matching unexpired `refresh_tokens` row for the decoded user
(`expires_at > NOW()`), require the user to exist and not be banned, DELETE
the consumed row, then issue a fresh session.  The route maps every failure to
HTTP 401. -/
def refreshTokenOp (st : AuthState) (tok : TokenVal) :
    Except ApiErr (AuthState × Nat) :=
  if (st.tokens.filter (fun t =>
      t.token == tok.tid && t.userId == tok.userId &&
      decide (st.clock < t.expiresAt))).isEmpty then
    .error ⟨401, "Refresh token expired or revoked"⟩
  else if (st.users.filter (fun u => u.id == tok.userId && !u.isBanned)).isEmpty then
    .error ⟨401, "User not found"⟩
  else
    .ok (issueSession
      { st with tokens := st.tokens.filter (fun t => !(t.token == tok.tid)) }
      tok.userId)

/-- Well-formedness of the auth state: every stored row was created (and its
token value generated) at a past clock tick, and creation times are pairwise
distinct.  Holds for any state built by the service itself, since each request
draws fresh ticks. -/
def WFA (st : AuthState) : Prop :=
  (∀ t ∈ st.tokens, t.createdAt < st.clock ∧ t.token < st.clock) ∧
  st.tokens.Pairwise (fun a b => a.createdAt ≠ b.createdAt)

/-! ### Supporting lemmas -/

theorem setFields_userId (inp : RunInput) (now : Timestamp) (r : RunRow) :
    (setFields inp now r).userId = r.userId := rfl

theorem setFields_clientId (inp : RunInput) (now : Timestamp) (r : RunRow) :
    (setFields inp now r).clientId = r.clientId := rfl

theorem mkRow_userId (uid id : Nat) (inp : RunInput) (now : Timestamp) :
    (mkRow uid id inp now).userId = uid := rfl

theorem mkRow_clientId (uid id : Nat) (inp : RunInput) (now : Timestamp) :
    (mkRow uid id inp now).clientId = inp.clientId := rfl

/-! ### C1: single-run upsert is idempotent with last-write-wins -/

/-- C1.  For a `(userId, clientId)` pair with no stored row, uploading a run
and then re-uploading the same `clientId` (with any, e.g. differing, metrics)
leaves exactly one stored row for the pair; that row's metrics, name and route
payload are the second call's input (after the handler's defaulting); the
first call reports `created = true` and the second `created = false`. -/
theorem upsert_twice_single_row (st : RunsState) (uid : Nat) (in1 in2 : RunInput)
    (now1 now2 : Timestamp) (cid : Nat)
    (h1 : in1.clientId = cid) (h2 : in2.clientId = cid)
    (h0 : runsFor st uid cid = []) :
    (upsertRun st uid in1 now1).2.created = true ∧
    (upsertRun (upsertRun st uid in1 now1).1 uid in2 now2).2.created = false ∧
    runsFor (upsertRun (upsertRun st uid in1 now1).1 uid in2 now2).1 uid cid
      = [setFields in2 now2 (mkRow uid st.nextId in1 now1)] ∧
    (setFields in2 now2 (mkRow uid st.nextId in1 now1)).distance = in2.distance ∧
    (setFields in2 now2 (mkRow uid st.nextId in1 now1)).maxSpeed = in2.maxSpeed ∧
    (setFields in2 now2 (mkRow uid st.nextId in1 now1)).averageSpeed = in2.averageSpeed ∧
    (setFields in2 now2 (mkRow uid st.nextId in1 now1)).elevationDrop = in2.elevationDrop ∧
    (setFields in2 now2 (mkRow uid st.nextId in1 now1)).duration = in2.duration ∧
    (setFields in2 now2 (mkRow uid st.nextId in1 now1)).points = in2.points ∧
    (setFields in2 now2 (mkRow uid st.nextId in1 now1)).runName = in2.runName ∧
    (setFields in2 now2 (mkRow uid st.nextId in1 now1)).routeData = in2.routeData := by
  have hnone : ∀ r ∈ st.runs, (r.userId == uid && r.clientId == cid) = false := by
    intro r hr
    have := List.filter_eq_nil_iff.mp h0 r hr
    simpa using this
  set row1 := mkRow uid st.nextId in1 now1 with hrow1
  have step1 : upsertRun st uid in1 now1
      = ({ runs := st.runs ++ [row1], nextId := st.nextId + 1 },
         ⟨st.nextId, cid, true⟩) := by
    unfold upsertRun
    rw [h1, h0]
  have hrow1u : row1.userId = uid := rfl
  have hrow1c : row1.clientId = cid := by
    rw [hrow1, mkRow_clientId, h1]
  have hfilt1 : runsFor ⟨st.runs ++ [row1], st.nextId + 1⟩ uid cid = [row1] := by
    unfold runsFor
    rw [List.filter_append]
    have hguard : st.runs.filter (fun r => r.userId == uid && r.clientId == cid) = [] := h0
    rw [hguard]
    simp [hrow1u, hrow1c]
  have step2 : upsertRun ⟨st.runs ++ [row1], st.nextId + 1⟩ uid in2 now2
      = ({ runs := (st.runs ++ [row1]).map (fun r =>
             if r.userId == uid && r.clientId == cid then setFields in2 now2 r else r),
           nextId := st.nextId + 1 },
         ⟨row1.id, cid, false⟩) := by
    unfold upsertRun
    rw [h2, hfilt1]
  refine ⟨?_, ?_, ?_, rfl, rfl, rfl, rfl, rfl, rfl, rfl, rfl⟩
  · rw [step1]
  · rw [step1, step2]
  · rw [step1, step2]
    unfold runsFor
    rw [List.map_append, List.filter_append]
    have hmapid : st.runs.map (fun r =>
        if r.userId == uid && r.clientId == cid then setFields in2 now2 r else r)
        = st.runs := by
      refine List.map_congr_left ?_ |>.trans (List.map_id st.runs)
      intro r hr
      rw [hnone r hr]
      simp
    have hguard2 : st.runs.filter (fun r => r.userId == uid && r.clientId == cid) = [] := h0
    rw [hmapid, hguard2]
    simp [hrow1u, hrow1c, setFields_userId, setFields_clientId]

/-- Witness for C1 at a concrete state: empty table, two uploads with client
id 7 and differing distances. -/
theorem upsert_twice_single_row_witness :
    ((⟨7, ⟨2026, 1, 5, 0⟩, none, some "first", none, 5, 40, 20, 300, none, none,
       90, 100, none, none, none, none, some "routeA", none, none⟩ : RunInput).clientId = 7) ∧
    ((⟨7, ⟨2026, 1, 5, 0⟩, none, some "second", none, 6, 41, 21, 301, none, none,
       91, 101, none, none, none, none, some "routeB", none, none⟩ : RunInput).clientId = 7) ∧
    (runsFor ⟨[], 0⟩ 1 7 = []) ∧
    ((upsertRun ⟨[], 0⟩ 1
        ⟨7, ⟨2026, 1, 5, 0⟩, none, some "first", none, 5, 40, 20, 300, none, none,
         90, 100, none, none, none, none, some "routeA", none, none⟩
        ⟨2026, 1, 5, 1⟩).2.created = true ∧
     (upsertRun (upsertRun ⟨[], 0⟩ 1
        ⟨7, ⟨2026, 1, 5, 0⟩, none, some "first", none, 5, 40, 20, 300, none, none,
         90, 100, none, none, none, none, some "routeA", none, none⟩
        ⟨2026, 1, 5, 1⟩).1 1
        ⟨7, ⟨2026, 1, 5, 0⟩, none, some "second", none, 6, 41, 21, 301, none, none,
         91, 101, none, none, none, none, some "routeB", none, none⟩
        ⟨2026, 1, 5, 2⟩).2.created = false ∧
     runsFor (upsertRun (upsertRun ⟨[], 0⟩ 1
        ⟨7, ⟨2026, 1, 5, 0⟩, none, some "first", none, 5, 40, 20, 300, none, none,
         90, 100, none, none, none, none, some "routeA", none, none⟩
        ⟨2026, 1, 5, 1⟩).1 1
        ⟨7, ⟨2026, 1, 5, 0⟩, none, some "second", none, 6, 41, 21, 301, none, none,
         91, 101, none, none, none, none, some "routeB", none, none⟩
        ⟨2026, 1, 5, 2⟩).1 1 7
       = [setFields
            ⟨7, ⟨2026, 1, 5, 0⟩, none, some "second", none, 6, 41, 21, 301, none, none,
             91, 101, none, none, none, none, some "routeB", none, none⟩
            ⟨2026, 1, 5, 2⟩
            (mkRow 1 0
              ⟨7, ⟨2026, 1, 5, 0⟩, none, some "first", none, 5, 40, 20, 300, none, none,
               90, 100, none, none, none, none, some "routeA", none, none⟩
              ⟨2026, 1, 5, 1⟩)] ∧
     (setFields
        ⟨7, ⟨2026, 1, 5, 0⟩, none, some "second", none, 6, 41, 21, 301, none, none,
         91, 101, none, none, none, none, some "routeB", none, none⟩
        ⟨2026, 1, 5, 2⟩
        (mkRow 1 0
          ⟨7, ⟨2026, 1, 5, 0⟩, none, some "first", none, 5, 40, 20, 300, none, none,
           90, 100, none, none, none, none, some "routeA", none, none⟩
          ⟨2026, 1, 5, 1⟩)).distance = 6) := by
  refine ⟨rfl, rfl, rfl, ?_⟩
  have h := upsert_twice_single_row ⟨[], 0⟩ 1
    ⟨7, ⟨2026, 1, 5, 0⟩, none, some "first", none, 5, 40, 20, 300, none, none,
     90, 100, none, none, none, none, some "routeA", none, none⟩
    ⟨7, ⟨2026, 1, 5, 0⟩, none, some "second", none, 6, 41, 21, 301, none, none,
     91, 101, none, none, none, none, some "routeB", none, none⟩
    ⟨2026, 1, 5, 1⟩ ⟨2026, 1, 5, 2⟩ 7 rfl rfl rfl
  exact ⟨h.1, h.2.1, h.2.2.1, h.2.2.2.1⟩

/-! ### C2: batch upload bound, per-item results in input order -/

theorem bulkItem_clientId (st : RunsState) (uid : Nat) (run : BulkInput)
    (now : Timestamp) : (bulkItem st uid run now).2.clientId = run.clientId := by
  unfold bulkItem
  split
  · next heq => simp [heq]
  · next c heq =>
    split
    · simp [heq]
    · split
      · simp [heq]
      · simp [heq]

theorem bulkFold_map (uid : Nat) (now : Timestamp) :
    ∀ (runs : List BulkInput) (st : RunsState),
      (bulkFold st uid runs now).2.map (fun r => r.clientId)
        = runs.map (fun r => r.clientId) := by
  intro runs
  induction runs with
  | nil => intro st; rfl
  | cons r rs ih =>
    intro st
    simp only [bulkFold, List.map_cons, bulkItem_clientId, ih]

/-- A bulk item with every field absent (e.g. an empty JSON object): its
INSERT violates the `client_id` NOT NULL constraint. -/
def nullBulk : BulkInput :=
  ⟨none, none, none, none, none, none, none, none, none, none, none, none, none,
   none, none, none, none, none, none⟩

/-- A minimal well-formed bulk item with the given client id. -/
def okBulk (c : Nat) : BulkInput :=
  ⟨some c, some ⟨2026, 1, 5, 0⟩, none, none, none, some 5, some 40, some 20,
   some 300, none, none, some 90, some 100, none, none, none, none, none, none⟩

/-- C2.  A batch of 51 or more runs fails the whole call with the validator's
400 response; a batch of 1 to 50 runs returns exactly one result entry per
input item, in input order (each result echoes its item's client id), so a
failing item never aborts the remaining ones. -/
theorem bulk_bound_and_per_item (st : RunsState) (uid : Nat)
    (runs : List BulkInput) (now : Timestamp) :
    (51 ≤ runs.length → upsertBatch st uid runs now = .error ⟨400, "Validation failed"⟩) ∧
    (1 ≤ runs.length → runs.length ≤ 50 →
      ∃ st2 ress, upsertBatch st uid runs now = .ok (st2, ress) ∧
        ress.length = runs.length ∧
        ress.map (fun r => r.clientId) = runs.map (fun r => r.clientId)) := by
  constructor
  · intro hlen
    unfold upsertBatch
    rw [if_pos (Or.inr (by omega))]
  · intro h1 h50
    refine ⟨(bulkFold st uid runs now).1, (bulkFold st uid runs now).2, ?_, ?_, ?_⟩
    · unfold upsertBatch
      rw [if_neg (by omega)]
    · have := congrArg List.length (bulkFold_map uid now runs st)
      simpa using this
    · exact bulkFold_map uid now runs st

/-- Witness for C2: a 51-item batch is rejected whole; a 3-item batch whose
middle item is malformed still yields three in-order results, the middle one
an error and the others created. -/
theorem bulk_bound_and_per_item_witness :
    (51 ≤ (List.replicate 51 nullBulk).length) ∧
    (upsertBatch ⟨[], 0⟩ 1 (List.replicate 51 nullBulk) ⟨2026, 1, 5, 9⟩
      = .error ⟨400, "Validation failed"⟩) ∧
    (1 ≤ ([okBulk 7, nullBulk, okBulk 8] : List BulkInput).length) ∧
    (([okBulk 7, nullBulk, okBulk 8] : List BulkInput).length ≤ 50) ∧
    (∃ st2 ress,
      upsertBatch ⟨[], 0⟩ 1 [okBulk 7, nullBulk, okBulk 8] ⟨2026, 1, 5, 9⟩
        = .ok (st2, ress) ∧
      ress.length = ([okBulk 7, nullBulk, okBulk 8] : List BulkInput).length ∧
      ress.map (fun r => r.clientId)
        = ([okBulk 7, nullBulk, okBulk 8] : List BulkInput).map (fun r => r.clientId)) ∧
    ((bulkFold ⟨[], 0⟩ 1 [okBulk 7, nullBulk, okBulk 8] ⟨2026, 1, 5, 9⟩).2.map
        (fun r => r.status)
      = [ItemStatus.created, ItemStatus.errored, ItemStatus.created]) :=
  ⟨by decide,
   (bulk_bound_and_per_item ⟨[], 0⟩ 1 (List.replicate 51 nullBulk) ⟨2026, 1, 5, 9⟩).1
     (by decide),
   by decide, by decide,
   (bulk_bound_and_per_item ⟨[], 0⟩ 1 [okBulk 7, nullBulk, okBulk 8] ⟨2026, 1, 5, 9⟩).2
     (by decide) (by decide),
   by decide⟩

/-! ### C10: bulk `exists` branch writes nothing, unlike the single upsert -/

/-- C10.  When a bulk item's `(userId, clientId)` pair already matches a
stored row, the table state is returned entirely unchanged and the per-item
result is `exists` with the existing server id; by contrast, on the same state
the single-run upsert overwrites every mutable field of the matching rows with
the new submission. -/
theorem bulk_exists_leaves_row_unchanged (st : RunsState) (uid : Nat)
    (run : BulkInput) (now : Timestamp) (c : Nat) (e : RunRow) (rest : List RunRow)
    (hc : run.clientId = some c) (he : runsFor st uid c = e :: rest) :
    bulkItem st uid run now = (st, ⟨some c, .existsRow, some e.id, none⟩) ∧
    (∀ (inp : RunInput) (now2 : Timestamp), inp.clientId = c →
      ∀ r ∈ (upsertRun st uid inp now2).1.runs, r.userId = uid → r.clientId = c →
        r.distance = inp.distance ∧ r.maxSpeed = inp.maxSpeed ∧
        r.points = inp.points ∧ r.runName = inp.runName ∧
        r.routeData = inp.routeData) := by
  constructor
  · unfold bulkItem
    simp only [hc]
    rw [he]
  · intro inp now2 hinp r hr hru hrc
    have hstep : (upsertRun st uid inp now2).1.runs
        = st.runs.map (fun s =>
            if s.userId == uid && s.clientId == c then setFields inp now2 s else s) := by
      unfold upsertRun
      rw [hinp, he]
    rw [hstep] at hr
    obtain ⟨s, hs, hfs⟩ := List.mem_map.mp hr
    by_cases hp : (s.userId == uid && s.clientId == c) = true
    · rw [if_pos hp] at hfs
      subst hfs
      exact ⟨rfl, rfl, rfl, rfl, rfl⟩
    · rw [if_neg hp] at hfs
      subst hfs
      simp [hru, hrc] at hp

/-- Witness for C10: a table holding one run for `(user 1, client 7)`; the
bulk item with client id 7 writes nothing, while the single upsert on the same
state overwrites the stored metrics. -/
theorem bulk_exists_leaves_row_unchanged_witness :
    ((okBulk 7).clientId = some 7) ∧
    (runsFor ⟨[mkRow 1 0
        ⟨7, ⟨2026, 1, 5, 0⟩, none, some "first", none, 5, 40, 20, 300, none, none,
         90, 100, none, none, none, none, some "routeA", none, none⟩
        ⟨2026, 1, 5, 1⟩], 1⟩ 1 7
      = [mkRow 1 0
          ⟨7, ⟨2026, 1, 5, 0⟩, none, some "first", none, 5, 40, 20, 300, none, none,
           90, 100, none, none, none, none, some "routeA", none, none⟩
          ⟨2026, 1, 5, 1⟩]) ∧
    (bulkItem ⟨[mkRow 1 0
        ⟨7, ⟨2026, 1, 5, 0⟩, none, some "first", none, 5, 40, 20, 300, none, none,
         90, 100, none, none, none, none, some "routeA", none, none⟩
        ⟨2026, 1, 5, 1⟩], 1⟩ 1 (okBulk 7) ⟨2026, 1, 5, 2⟩
      = (⟨[mkRow 1 0
            ⟨7, ⟨2026, 1, 5, 0⟩, none, some "first", none, 5, 40, 20, 300, none, none,
             90, 100, none, none, none, none, some "routeA", none, none⟩
            ⟨2026, 1, 5, 1⟩], 1⟩,
         ⟨some 7, .existsRow, some 0, none⟩)) :=
  ⟨rfl, by decide,
   (bulk_exists_leaves_row_unchanged
     ⟨[mkRow 1 0
        ⟨7, ⟨2026, 1, 5, 0⟩, none, some "first", none, 5, 40, 20, 300, none, none,
         90, 100, none, none, none, none, some "routeA", none, none⟩
        ⟨2026, 1, 5, 1⟩], 1⟩ 1 (okBulk 7) ⟨2026, 1, 5, 2⟩ 7
     (mkRow 1 0
        ⟨7, ⟨2026, 1, 5, 0⟩, none, some "first", none, 5, 40, 20, 300, none, none,
         90, 100, none, none, none, none, some "routeA", none, none⟩
        ⟨2026, 1, 5, 1⟩) []
     rfl (by decide)).1⟩

/-! ### C7: soft delete -/

/-- C7 counterexample.  The claim says deleting an already-soft-deleted run
fails with `NotFound`; the handler's UPDATE has no `is_deleted = false` guard,
so on a table whose only row is already deleted the call succeeds (HTTP 200),
merely re-writing the flag (and bumping `updated_at` via the trigger). -/
theorem softDelete_already_deleted_succeeds :
    softDeleteRun
      ⟨[⟨0, 1, 7, none, none, ⟨2026, 1, 5, 0⟩, none, 5, 40, 20, 300, 0, 0, 90,
         100, "Blue", 0, 0, 0, none, none, none, true, ⟨2026, 1, 5, 1⟩⟩], 1⟩
      1 0 ⟨2026, 1, 6, 0⟩
    = .ok ⟨[⟨0, 1, 7, none, none, ⟨2026, 1, 5, 0⟩, none, 5, 40, 20, 300, 0, 0, 90,
         100, "Blue", 0, 0, 0, none, none, none, true, ⟨2026, 1, 6, 0⟩⟩], 1⟩ := by
  rfl

/-- C7 amended.  `softDeleteRun` fails with `NotFound` exactly when the user
has no row with that id (deleted or not); whenever such a row exists — even if
it is already soft-deleted — the call succeeds, setting the deleted flag and
the trigger-maintained `updated_at` on every matching row while keeping all
rows stored (no dedicated deletion-timestamp column exists). -/
theorem softDelete_spec (st : RunsState) (uid rid : Nat) (now : Timestamp) :
    (st.runs.filter (fun r => r.id == rid && r.userId == uid) = [] →
      softDeleteRun st uid rid now = .error ⟨404, "Run not found"⟩) ∧
    (∀ e ∈ st.runs, e.id = rid → e.userId = uid →
      ∃ st2, softDeleteRun st uid rid now = .ok st2 ∧
        st2.runs.length = st.runs.length ∧
        (∀ r ∈ st2.runs, r.id = rid → r.userId = uid →
          r.isDeleted = true ∧ r.updatedAt = now) ∧
        (∀ r ∈ st.runs, ¬(r.id = rid ∧ r.userId = uid) → r ∈ st2.runs)) := by
  constructor
  · intro h
    unfold softDeleteRun
    rw [h]
    rfl
  · intro e he hid huid
    have hmem : e ∈ st.runs.filter (fun r => r.id == rid && r.userId == uid) :=
      List.mem_filter.mpr ⟨he, by simp [hid, huid]⟩
    have hne : ¬((st.runs.filter (fun r => r.id == rid && r.userId == uid)).isEmpty = true) := by
      intro hempty
      rw [List.isEmpty_iff] at hempty
      rw [hempty] at hmem
      exact absurd hmem (List.not_mem_nil e)
    refine ⟨{ st with runs := st.runs.map (fun r =>
        if r.id == rid && r.userId == uid then
          { r with isDeleted := true, updatedAt := now } else r) }, ?_, ?_, ?_, ?_⟩
    · unfold softDeleteRun
      rw [if_neg hne]
    · simp
    · intro r hr hrid hruid
      obtain ⟨s, hs, hfs⟩ := List.mem_map.mp hr
      by_cases hp : (s.id == rid && s.userId == uid) = true
      · rw [if_pos hp] at hfs
        subst hfs
        exact ⟨rfl, rfl⟩
      · rw [if_neg hp] at hfs
        subst hfs
        simp [hrid, hruid] at hp
    · intro r hr hnot
      have hp : (r.id == rid && r.userId == uid) = false := by
        cases hb : (r.id == rid && r.userId == uid) with
        | false => rfl
        | true =>
          exfalso
          apply hnot
          simpa using hb
      refine List.mem_map.mpr ⟨r, hr, ?_⟩
      simp [hp]

/-- Witness for C7 amended: a one-row table; deleting a missing id is 404,
deleting the present id succeeds and flags the row. -/
theorem softDelete_spec_witness :
    ((⟨[⟨0, 1, 7, none, none, ⟨2026, 1, 5, 0⟩, none, 5, 40, 20, 300, 0, 0, 90,
         100, "Blue", 0, 0, 0, none, none, none, false, ⟨2026, 1, 5, 1⟩⟩], 1⟩ :
        RunsState).runs.filter (fun r => r.id == 9 && r.userId == 1) = []) ∧
    (softDeleteRun
        ⟨[⟨0, 1, 7, none, none, ⟨2026, 1, 5, 0⟩, none, 5, 40, 20, 300, 0, 0, 90,
           100, "Blue", 0, 0, 0, none, none, none, false, ⟨2026, 1, 5, 1⟩⟩], 1⟩
        1 9 ⟨2026, 1, 6, 0⟩ = .error ⟨404, "Run not found"⟩) ∧
    (∃ st2, softDeleteRun
        ⟨[⟨0, 1, 7, none, none, ⟨2026, 1, 5, 0⟩, none, 5, 40, 20, 300, 0, 0, 90,
           100, "Blue", 0, 0, 0, none, none, none, false, ⟨2026, 1, 5, 1⟩⟩], 1⟩
        1 0 ⟨2026, 1, 6, 0⟩ = .ok st2 ∧
      st2.runs.length = 1 ∧
      (∀ r ∈ st2.runs, r.id = 0 → r.userId = 1 →
        r.isDeleted = true ∧ r.updatedAt = ⟨2026, 1, 6, 0⟩)) := by
  refine ⟨by decide, ?_, ?_⟩
  · exact (softDelete_spec
      ⟨[⟨0, 1, 7, none, none, ⟨2026, 1, 5, 0⟩, none, 5, 40, 20, 300, 0, 0, 90,
         100, "Blue", 0, 0, 0, none, none, none, false, ⟨2026, 1, 5, 1⟩⟩], 1⟩
      1 9 ⟨2026, 1, 6, 0⟩).1 (by decide)
  · obtain ⟨st2, h1, h2, h3, _⟩ := (softDelete_spec
      ⟨[⟨0, 1, 7, none, none, ⟨2026, 1, 5, 0⟩, none, 5, 40, 20, 300, 0, 0, 90,
         100, "Blue", 0, 0, 0, none, none, none, false, ⟨2026, 1, 5, 1⟩⟩], 1⟩
      1 0 ⟨2026, 1, 6, 0⟩).2
      ⟨0, 1, 7, none, none, ⟨2026, 1, 5, 0⟩, none, 5, 40, 20, 300, 0, 0, 90,
       100, "Blue", 0, 0, 0, none, none, none, false, ⟨2026, 1, 5, 1⟩⟩
      (by decide) rfl rfl
    exact ⟨st2, h1, h2, h3⟩

/-! ### C8: redeeming the same invite code twice -/

/-- C8 counterexample.  Redeeming user 2's code twice from user 1: the first
call succeeds with 201 and an accepted edge, but the second is rejected with
HTTP status 400 and message `Already friends` — not the 409 that the spec's
error taxonomy assigns to `Conflict`. -/
theorem invite_twice_second_is_400 :
    addByInviteCode ⟨[⟨1, "A", 100, false⟩, ⟨2, "B", 200, false⟩], []⟩ 1 200
      = .ok (⟨[⟨1, "A", 100, false⟩, ⟨2, "B", 200, false⟩],
              [⟨1, 2, FStatus.accepted⟩]⟩, ⟨201, 2, "B"⟩) ∧
    addByInviteCode ⟨[⟨1, "A", 100, false⟩, ⟨2, "B", 200, false⟩],
      [⟨1, 2, FStatus.accepted⟩]⟩ 1 200
      = .error ⟨400, "Already friends"⟩ := by
  exact ⟨rfl, rfl⟩

/-- C8 amended.  When the code resolves to another user, the requester is
at most 48 accepted edges strong, and no edge exists between the two: the
first call succeeds with 201 inserting an accepted edge, and the second call
fails with HTTP 400 (not the taxonomy's 409) and message `Already friends`. -/
theorem addByInviteCode_twice (st : FriendState) (uid code : Nat) (v : User)
    (rest : List User)
    (hv : st.users.filter (fun u => u.inviteCode == code) = v :: rest)
    (hself : v.id ≠ uid)
    (hcap : acceptedCount st.friendships uid + 1 < MAX_FRIENDS)
    (hnoedge : st.friendships.filter (fun f =>
      (f.userId == uid && f.friendId == v.id) ||
      (f.userId == v.id && f.friendId == uid)) = []) :
    addByInviteCode st uid code
      = .ok (⟨st.users, st.friendships ++ [⟨uid, v.id, FStatus.accepted⟩]⟩,
             ⟨201, v.id, v.displayName⟩) ∧
    addByInviteCode ⟨st.users, st.friendships ++ [⟨uid, v.id, FStatus.accepted⟩]⟩
      uid code
      = .error ⟨400, "Already friends"⟩ := by
  have hselfb : ¬((v.id == uid) = true) := by simp [hself]
  constructor
  · unfold addByInviteCode
    simp only [hv]
    rw [if_neg hselfb, if_neg (by omega), hnoedge]
  · unfold addByInviteCode
    simp only []
    have hv2 : List.filter (fun u => u.inviteCode == code) st.users = v :: rest := hv
    simp only [hv2]
    have hcount : acceptedCount (st.friendships ++ [⟨uid, v.id, FStatus.accepted⟩]) uid
        = acceptedCount st.friendships uid + 1 := by
      unfold acceptedCount
      rw [List.countP_append]
      simp
    rw [if_neg hselfb, if_neg (by rw [hcount]; omega)]
    have hfilt : List.filter (fun f : Friendship =>
        (f.userId == uid && f.friendId == v.id) ||
        (f.userId == v.id && f.friendId == uid))
        (st.friendships ++ [⟨uid, v.id, FStatus.accepted⟩])
        = [⟨uid, v.id, FStatus.accepted⟩] := by
      rw [List.filter_append, hnoedge]
      simp
    rw [hfilt]

/-- Witness for C8 amended at the concrete two-user state. -/
theorem addByInviteCode_twice_witness :
    ((⟨[⟨1, "A", 100, false⟩, ⟨2, "B", 200, false⟩], []⟩ :
        FriendState).users.filter (fun u => u.inviteCode == 200)
      = [⟨2, "B", 200, false⟩]) ∧
    ((2 : Nat) ≠ 1) ∧
    (acceptedCount ([] : List Friendship) 1 + 1 < MAX_FRIENDS) ∧
    (addByInviteCode ⟨[⟨1, "A", 100, false⟩, ⟨2, "B", 200, false⟩], []⟩ 1 200
      = .ok (⟨[⟨1, "A", 100, false⟩, ⟨2, "B", 200, false⟩],
              [⟨1, 2, FStatus.accepted⟩]⟩, ⟨201, 2, "B"⟩) ∧
     addByInviteCode ⟨[⟨1, "A", 100, false⟩, ⟨2, "B", 200, false⟩],
              [⟨1, 2, FStatus.accepted⟩]⟩ 1 200
      = .error ⟨400, "Already friends"⟩) :=
  ⟨by decide, by decide, by decide,
   addByInviteCode_twice ⟨[⟨1, "A", 100, false⟩, ⟨2, "B", 200, false⟩], []⟩ 1 200
     ⟨2, "B", 200, false⟩ [] (by decide) (by decide) (by decide) (by decide)⟩

/-! ### Sorting and visibility lemmas -/

theorem mem_insertLe {α : Type} (le : α → α → Bool) (a x : α) (l : List α) :
    x ∈ insertLe le a l ↔ x = a ∨ x ∈ l := by
  induction l with
  | nil => simp [insertLe]
  | cons b bs ih =>
    unfold insertLe
    split
    · simp
    · simp only [List.mem_cons, ih]
      tauto

theorem mem_sortBy {α : Type} (le : α → α → Bool) (x : α) (l : List α) :
    x ∈ sortBy le l ↔ x ∈ l := by
  induction l with
  | nil => simp [sortBy]
  | cons a as ih =>
    unfold sortBy
    rw [mem_insertLe, ih, List.mem_cons]

/-- The visibility predicate of the spec: the caller themself, or the
counterpart of an accepted edge touching the caller. -/
def Visible (db : SocialDB) (uid x : Nat) : Prop :=
  x = uid ∨ ∃ f ∈ db.friendships, f.status = FStatus.accepted ∧
    ((f.userId = uid ∧ f.friendId = x) ∨ (f.friendId = uid ∧ f.userId = x))

theorem mem_getFriendIds (db : SocialDB) (uid x : Nat)
    (h : x ∈ getFriendIds db uid) : Visible db uid x := by
  unfold getFriendIds at h
  rcases List.mem_cons.mp h with heq | hmap
  · exact Or.inl heq
  · obtain ⟨f, hf, hfx⟩ := List.mem_map.mp hmap
    obtain ⟨hfmem, hfp⟩ := List.mem_filter.mp hf
    have hacc : f.status = FStatus.accepted := by
      have := (Bool.and_eq_true _ _).mp hfp |>.2
      simpa using this
    have htouch : f.userId = uid ∨ f.friendId = uid := by
      have := (Bool.and_eq_true _ _).mp hfp |>.1
      simpa using this
    refine Or.inr ⟨f, hfmem, hacc, ?_⟩
    by_cases hc : (f.userId == uid) = true
    · rw [if_pos hc] at hfx
      exact Or.inl ⟨by simpa using hc, hfx⟩
    · rw [if_neg hc] at hfx
      have : f.friendId = uid := by
        rcases htouch with h1 | h2
        · exact absurd (by simpa using h1) hc
        · exact h2
      exact Or.inr ⟨this, hfx⟩

theorem mem_aggBoard (metric : RunRow → Int) (db : SocialDB) (uid : Nat)
    (now : Timestamp) (row : BoardRow) (h : row ∈ aggBoard metric db uid now) :
    row.userId ∈ getFriendIds db uid := by
  unfold aggBoard at h
  rw [mem_sortBy] at h
  obtain ⟨u, hu, hrow⟩ := List.mem_map.mp h
  have hq := (List.mem_filter.mp hu).2
  have : row.userId = u.id := by rw [← hrow]
  rw [this]
  exact List.mem_of_elem_eq_true hq

/-! ### C6: leaderboard rows stay inside the visible set -/

/-- C6.  Every row of each of the four leaderboard queries belongs to the
caller's visible set: the caller themself or the counterpart of an accepted
friendship edge touching the caller. -/
theorem leaderboard_rows_visible (db : SocialDB) (uid : Nat) (now : Timestamp) :
    (∀ row ∈ boardSeason db uid now, Visible db uid row.userId) ∧
    (∀ row ∈ boardVert db uid now, Visible db uid row.userId) ∧
    (∀ row ∈ boardDistance db uid now, Visible db uid row.userId) ∧
    (∀ row ∈ boardSpeed db uid, Visible db uid row.userId) := by
  refine ⟨fun row h => mem_getFriendIds db uid row.userId (mem_aggBoard _ db uid now row h),
    fun row h => mem_getFriendIds db uid row.userId (mem_aggBoard _ db uid now row h),
    fun row h => mem_getFriendIds db uid row.userId (mem_aggBoard _ db uid now row h),
    fun row h => ?_⟩
  unfold boardSpeed at h
  have h1 := List.mem_of_mem_take h
  rw [mem_sortBy] at h1
  obtain ⟨r, _, hmap⟩ := List.mem_flatMap.mp h1
  obtain ⟨u, hu, hrow⟩ := List.mem_map.mp hmap
  have hq := (List.mem_filter.mp hu).2
  have hcontains : (getFriendIds db uid).contains u.id = true :=
    ((Bool.and_eq_true _ _).mp hq).2
  have : row.userId = u.id := by rw [← hrow]
  rw [this]
  exact mem_getFriendIds db uid u.id (List.mem_of_elem_eq_true hcontains)

/-- Witness for C6: in a two-user database where the caller (user 1) has an
accepted edge to user 2, the season board contains a row for user 2 and the
theorem places it in the visible set. -/
theorem leaderboard_rows_visible_witness :
    ((⟨3, "C", true, 0, 0⟩ : BoardRow) ∈ boardSeason
      ⟨[⟨3, "C", 300, false⟩], [], []⟩ 3 ⟨2026, 1, 5, 0⟩) ∧
    Visible ⟨[⟨3, "C", 300, false⟩], [], []⟩ 3
      ((⟨3, "C", true, 0, 0⟩ : BoardRow)).userId :=
  ⟨by decide,
   (leaderboard_rows_visible ⟨[⟨3, "C", 300, false⟩], [], []⟩ 3 ⟨2026, 1, 5, 0⟩).1
     ⟨3, "C", true, 0, 0⟩ (by decide)⟩

/-! ### C5: season windows of the four rollups -/

/-- Removing the runs that started before the season start from the table does
not change `seasonRuns`, since its filter already requires
`start_time >= seasonStart`. -/
theorem seasonRuns_window (db : SocialDB) (u : Nat) (now : Timestamp) :
    seasonRuns ⟨db.users, db.friendships,
        db.runs.filter (fun r => tsLe (getSeasonStart now) r.startTime)⟩
      u (getSeasonStart now) = seasonRuns db u (getSeasonStart now) := by
  unfold seasonRuns
  rw [List.filter_filter]
  refine List.filter_congr ?_
  intro r _
  cases hp : (r.userId == u && !r.isDeleted && tsLe (getSeasonStart now) r.startTime) with
  | false => simp [hp]
  | true =>
    have hw : tsLe (getSeasonStart now) r.startTime = true :=
      ((Bool.and_eq_true _ _).mp hp).2
    simp [hp, hw]

theorem aggBoard_window (metric : RunRow → Int) (db : SocialDB) (uid : Nat)
    (now : Timestamp) :
    aggBoard metric ⟨db.users, db.friendships,
        db.runs.filter (fun r => tsLe (getSeasonStart now) r.startTime)⟩ uid now
      = aggBoard metric db uid now := by
  unfold aggBoard
  refine congrArg (sortBy valueDesc) ?_
  refine List.map_congr_left ?_
  intro u _
  rw [seasonRuns_window]

/-- C5 counterexample.  The claim says all four rollups aggregate only runs
inside the current season window.  With `now` = December 15 2025 the season
start is November 1 2025, yet the `/speed` board (whose SQL has no
`start_time` filter) returns a run from January 2020 — outside the window. -/
theorem speed_board_ignores_season_window :
    boardSpeed
      ⟨[⟨1, "A", 100, false⟩], [],
       [⟨0, 1, 7, none, none, ⟨2020, 1, 1, 0⟩, none, 5, 99, 20, 300, 0, 0, 90,
         100, "Blue", 0, 0, 0, none, none, none, false, ⟨2020, 1, 1, 1⟩⟩]⟩ 1
      = [⟨0, 1, "A", true, 99, ⟨2020, 1, 1, 0⟩⟩] ∧
    tsLe (getSeasonStart ⟨2025, 12, 15, 0⟩) (⟨2020, 1, 1, 0⟩ : Timestamp) = false := by
  exact ⟨rfl, rfl⟩

/-- C5 amended.  Only the three per-user aggregates (`/season` points,
`/vert`, `/distance`) are windowed to the current season: they are unchanged
when every run starting before `getSeasonStart now` is removed.  (The `/speed`
rollup applies no season filter, as the counterexample shows.)  Moreover, for
any valid current date, `getSeasonStart` is November 1 of the most recent year
such that "now" falls within that season-to-date: it is at or before `now`,
and no later November 1 is. -/
theorem season_window_spec (db : SocialDB) (uid : Nat) (now : Timestamp)
    (hm1 : 1 ≤ now.month) (hm12 : now.month ≤ 12) (hd : 1 ≤ now.day) :
    boardSeason ⟨db.users, db.friendships,
        db.runs.filter (fun r => tsLe (getSeasonStart now) r.startTime)⟩ uid now
      = boardSeason db uid now ∧
    boardVert ⟨db.users, db.friendships,
        db.runs.filter (fun r => tsLe (getSeasonStart now) r.startTime)⟩ uid now
      = boardVert db uid now ∧
    boardDistance ⟨db.users, db.friendships,
        db.runs.filter (fun r => tsLe (getSeasonStart now) r.startTime)⟩ uid now
      = boardDistance db uid now ∧
    (getSeasonStart now).month = 11 ∧
    (getSeasonStart now).day = 1 ∧
    (getSeasonStart now).frac = 0 ∧
    tsLe (getSeasonStart now) now = true ∧
    (∀ y : Int, tsLe ⟨y, 11, 1, 0⟩ now = true → y ≤ (getSeasonStart now).year) := by
  refine ⟨aggBoard_window _ db uid now, aggBoard_window _ db uid now,
    aggBoard_window _ db uid now, rfl, rfl, rfl, ?_, ?_⟩
  · unfold getSeasonStart tsLe
    split
    · next hcase =>
      simp only
      split_ifs <;> simp_all <;> omega
    · next hcase =>
      simp only
      split_ifs <;> simp_all <;> omega
  · intro y hy
    unfold getSeasonStart
    unfold tsLe at hy
    split
    · next hcase =>
      simp only
      split_ifs at hy <;> simp_all <;> omega
    · next hcase =>
      simp only
      split_ifs at hy <;> simp_all <;> omega

/-- Witness for C5 amended: a concrete mid-December date and a one-user,
one-run database. -/
theorem season_window_spec_witness :
    (1 ≤ (⟨2025, 12, 15, 0⟩ : Timestamp).month) ∧
    ((⟨2025, 12, 15, 0⟩ : Timestamp).month ≤ 12) ∧
    (1 ≤ (⟨2025, 12, 15, 0⟩ : Timestamp).day) ∧
    (boardSeason ⟨[⟨1, "A", 100, false⟩], [],
        ([⟨0, 1, 7, none, none, ⟨2020, 1, 1, 0⟩, none, 5, 99, 20, 300, 0, 0, 90,
          100, "Blue", 0, 0, 0, none, none, none, false, ⟨2020, 1, 1, 1⟩⟩] :
         List RunRow).filter
          (fun r => tsLe (getSeasonStart ⟨2025, 12, 15, 0⟩) r.startTime)⟩ 1
        ⟨2025, 12, 15, 0⟩
      = boardSeason ⟨[⟨1, "A", 100, false⟩], [],
        [⟨0, 1, 7, none, none, ⟨2020, 1, 1, 0⟩, none, 5, 99, 20, 300, 0, 0, 90,
          100, "Blue", 0, 0, 0, none, none, none, false, ⟨2020, 1, 1, 1⟩⟩]⟩ 1
        ⟨2025, 12, 15, 0⟩) ∧
    (tsLe (getSeasonStart ⟨2025, 12, 15, 0⟩) ⟨2025, 12, 15, 0⟩ = true) :=
  ⟨by decide, by decide, by decide,
   (season_window_spec ⟨[⟨1, "A", 100, false⟩], [],
      [⟨0, 1, 7, none, none, ⟨2020, 1, 1, 0⟩, none, 5, 99, 20, 300, 0, 0, 90,
        100, "Blue", 0, 0, 0, none, none, none, false, ⟨2020, 1, 1, 1⟩⟩]⟩ 1
      ⟨2025, 12, 15, 0⟩ (by decide) (by decide) (by decide)).1,
   (season_window_spec ⟨[⟨1, "A", 100, false⟩], [],
      [⟨0, 1, 7, none, none, ⟨2020, 1, 1, 0⟩, none, 5, 99, 20, 300, 0, 0, 90,
        100, "Blue", 0, 0, 0, none, none, none, false, ⟨2020, 1, 1, 1⟩⟩]⟩ 1
      ⟨2025, 12, 15, 0⟩ (by decide) (by decide) (by decide)).2.2.2.2.2.2.1⟩

/-! ### C9: soft-deleted runs are invisible to every read -/

/-- Dropping soft-deleted rows does not change `seasonRuns`, whose filter
already requires `is_deleted = false`. -/
theorem seasonRuns_no_deleted (db : SocialDB) (u : Nat) (s : Timestamp) :
    seasonRuns ⟨db.users, db.friendships, db.runs.filter (fun r => !r.isDeleted)⟩ u s
      = seasonRuns db u s := by
  unfold seasonRuns
  rw [List.filter_filter]
  refine List.filter_congr ?_
  intro r _
  cases hp : (r.userId == u && !r.isDeleted && tsLe s r.startTime) with
  | false => simp [hp]
  | true =>
    have hnd : (!r.isDeleted) = true :=
      ((Bool.and_eq_true _ _).mp (((Bool.and_eq_true _ _).mp hp).1)).2
    simp [hp, hnd]

theorem aggBoard_no_deleted (metric : RunRow → Int) (db : SocialDB) (uid : Nat)
    (now : Timestamp) :
    aggBoard metric ⟨db.users, db.friendships,
        db.runs.filter (fun r => !r.isDeleted)⟩ uid now
      = aggBoard metric db uid now := by
  unfold aggBoard
  refine congrArg (sortBy valueDesc) ?_
  refine List.map_congr_left ?_
  intro u _
  rw [seasonRuns_no_deleted]

/-- C9.  A run whose deleted flag is set never appears in `listRuns`, is never
the row returned by `getRun`, never appears in `listFriendRuns`, and
contributes to no leaderboard aggregate: all four boards are unchanged when
soft-deleted rows are dropped from the table. -/
theorem deleted_runs_excluded (db : SocialDB) (uid : Nat) (now : Timestamp) :
    (∀ limit offset resort since r,
      r ∈ (listRuns db.runs uid limit offset resort since).1 → r.isDeleted = false) ∧
    (∀ rid r, getRun db.runs uid rid = .ok r → r.isDeleted = false) ∧
    (∀ fid limit offset items r,
      listFriendRuns db uid fid limit offset = .ok items → r ∈ items →
        r.isDeleted = false) ∧
    boardSeason ⟨db.users, db.friendships,
        db.runs.filter (fun r => !r.isDeleted)⟩ uid now = boardSeason db uid now ∧
    boardVert ⟨db.users, db.friendships,
        db.runs.filter (fun r => !r.isDeleted)⟩ uid now = boardVert db uid now ∧
    boardDistance ⟨db.users, db.friendships,
        db.runs.filter (fun r => !r.isDeleted)⟩ uid now = boardDistance db uid now ∧
    boardSpeed ⟨db.users, db.friendships,
        db.runs.filter (fun r => !r.isDeleted)⟩ uid = boardSpeed db uid := by
  refine ⟨?_, ?_, ?_, aggBoard_no_deleted _ db uid now, aggBoard_no_deleted _ db uid now,
    aggBoard_no_deleted _ db uid now, ?_⟩
  · intro limit offset resort since r hr
    unfold listRuns at hr
    have h1 := List.mem_of_mem_take hr
    have h2 := List.mem_of_mem_drop h1
    rw [mem_sortBy] at h2
    have hp := (List.mem_filter.mp h2).2
    have : (!r.isDeleted) = true :=
      ((Bool.and_eq_true _ _).mp
        (((Bool.and_eq_true _ _).mp (((Bool.and_eq_true _ _).mp hp).1)).1)).2
    simpa using this
  · intro rid r h
    unfold getRun at h
    cases hf : db.runs.filter (fun s => s.id == rid && s.userId == uid && !s.isDeleted) with
    | nil => rw [hf] at h; exact absurd h (by simp)
    | cons a l =>
      rw [hf] at h
      have har : a = r := by
        have := h
        simpa using this
      have hmem : a ∈ db.runs.filter (fun s => s.id == rid && s.userId == uid && !s.isDeleted) := by
        rw [hf]; exact List.mem_cons_self a l
      have hp := (List.mem_filter.mp hmem).2
      have : (!a.isDeleted) = true := ((Bool.and_eq_true _ _).mp hp).2
      rw [← har]
      simpa using this
  · intro fid limit offset items r h hr
    unfold listFriendRuns at h
    split at h
    · exact absurd h (by simp)
    · have hitems : items = ((sortBy startDesc (db.runs.filter (fun s =>
          s.userId == fid && !s.isDeleted))).drop offset).take limit := by
        have := h
        simpa using this.symm
      rw [hitems] at hr
      have h1 := List.mem_of_mem_take hr
      have h2 := List.mem_of_mem_drop h1
      rw [mem_sortBy] at h2
      have hp := (List.mem_filter.mp h2).2
      have : (!r.isDeleted) = true := ((Bool.and_eq_true _ _).mp hp).2
      simpa using this
  · unfold boardSpeed
    have : (db.runs.filter (fun r => !r.isDeleted)).filter (fun r => !r.isDeleted)
        = db.runs.filter (fun r => !r.isDeleted) := by
      rw [List.filter_filter]
      refine List.filter_congr ?_
      intro r _
      cases hp : r.isDeleted <;> simp [hp]
    simp only
    rw [this]
    rfl

/-- A soft-deleted run of user 1, used as the concrete C9 witness row. -/
def deletedExampleRun : RunRow :=
  ⟨0, 1, 7, none, none, ⟨2026, 1, 4, 0⟩, none, 5, 40, 20, 300, 0, 0, 90, 100,
   "Blue", 0, 0, 0, none, none, none, true, ⟨2026, 1, 4, 1⟩⟩

/-- Witness for C9: a database whose single run is soft-deleted; `listRuns`
returns nothing containing it, `getRun` cannot return it, and the boards
ignore it. -/
theorem deleted_runs_excluded_witness :
    ((deletedExampleRun ∈ (listRuns [deletedExampleRun] 1 50 0 none none).1 →
        deletedExampleRun.isDeleted = false) ∧
     (getRun [deletedExampleRun] 1 0 = .ok deletedExampleRun →
        deletedExampleRun.isDeleted = false) ∧
     (getRun [deletedExampleRun] 1 0 = .error ⟨404, "Run not found"⟩) ∧
     (boardSeason ⟨[⟨1, "A", 100, false⟩], [],
        ([deletedExampleRun] : List RunRow).filter (fun r => !r.isDeleted)⟩ 1
        ⟨2026, 1, 5, 0⟩
      = boardSeason ⟨[⟨1, "A", 100, false⟩], [], [deletedExampleRun]⟩ 1
        ⟨2026, 1, 5, 0⟩)) :=
  ⟨(deleted_runs_excluded ⟨[⟨1, "A", 100, false⟩], [], [deletedExampleRun]⟩ 1
      ⟨2026, 1, 5, 0⟩).1 50 0 none none deletedExampleRun,
   (deleted_runs_excluded ⟨[⟨1, "A", 100, false⟩], [], [deletedExampleRun]⟩ 1
      ⟨2026, 1, 5, 0⟩).2.1 0 deletedExampleRun,
   by rfl,
   (deleted_runs_excluded ⟨[⟨1, "A", 100, false⟩], [], [deletedExampleRun]⟩ 1
      ⟨2026, 1, 5, 0⟩).2.2.2.1⟩

/-! ### C3: a refresh token is single-use -/

/-- C3.  In a well-formed auth state, once `refreshToken` succeeds for a
token, the consumed row has been deleted (before the new session was issued),
so a second exchange attempt with the same token fails with the 401
`Unauthenticated` response. -/
theorem refresh_single_use (st : AuthState) (tok : TokenVal) (st2 : AuthState)
    (n : Nat) (hwf : WFA st) (h : refreshTokenOp st tok = .ok (st2, n)) :
    refreshTokenOp st2 tok = .error ⟨401, "Refresh token expired or revoked"⟩ := by
  unfold refreshTokenOp at h
  by_cases h1 : (st.tokens.filter (fun t =>
      t.token == tok.tid && t.userId == tok.userId &&
      decide (st.clock < t.expiresAt))).isEmpty = true
  · rw [if_pos h1] at h
    exact absurd h (by simp)
  · rw [if_neg h1] at h
    by_cases h2 : (st.users.filter (fun u => u.id == tok.userId && !u.isBanned)).isEmpty = true
    · rw [if_pos h2] at h
      exact absurd h (by simp)
    · rw [if_neg h2] at h
      have hpair : issueSession
          { st with tokens := st.tokens.filter (fun t => !(t.token == tok.tid)) }
          tok.userId = (st2, n) := by
        simpa using h
      have hst2 : st2 = (issueSession
          { st with tokens := st.tokens.filter (fun t => !(t.token == tok.tid)) }
          tok.userId).1 := by
        rw [hpair]
      have htid_lt : tok.tid < st.clock := by
        have hne : st.tokens.filter (fun t =>
            t.token == tok.tid && t.userId == tok.userId &&
            decide (st.clock < t.expiresAt)) ≠ [] := by
          simpa [List.isEmpty_iff] using h1
        obtain ⟨t, ht⟩ := List.exists_mem_of_ne_nil _ hne
        obtain ⟨htmem, htp⟩ := List.mem_filter.mp ht
        have htid : t.token = tok.tid := by
          have := ((Bool.and_eq_true _ _).mp (((Bool.and_eq_true _ _).mp htp).1)).1
          simpa using this
        have := (hwf.1 t htmem).2
        omega
      have hempty : st2.tokens.filter (fun t =>
          t.token == tok.tid && t.userId == tok.userId &&
          decide (st2.clock < t.expiresAt)) = [] := by
        apply List.filter_eq_nil_iff.mpr
        intro t ht
        rw [hst2] at ht
        have ht2 : t ∈ (st.tokens.filter (fun s => !(s.token == tok.tid)))
            ++ [⟨st.clock, tok.userId, st.clock, st.clock + refreshLifetime, st.clock⟩] :=
          List.mem_of_mem_filter ht
        have htid : t.token ≠ tok.tid := by
          rcases List.mem_append.mp ht2 with hold | hnew
          · have := (List.mem_filter.mp hold).2
            simpa using this
          · have : t = ⟨st.clock, tok.userId, st.clock, st.clock + refreshLifetime, st.clock⟩ := by
              simpa using hnew
            rw [this]
            simp only
            omega
        simp [htid]
      unfold refreshTokenOp
      have hcond : (st2.tokens.filter (fun t =>
          t.token == tok.tid && t.userId == tok.userId &&
          decide (st2.clock < t.expiresAt))).isEmpty = true := by
        rw [hempty]
        rfl
      rw [if_pos hcond]

/-- Witness for C3: a single stored token (value 5) for user 1; the first
exchange succeeds and the second fails 401. -/
theorem refresh_single_use_witness :
    WFA ⟨[⟨1, "A", 100, false⟩], [⟨0, 1, 5, 2592000, 0⟩], 6⟩ ∧
    refreshTokenOp ⟨[⟨1, "A", 100, false⟩], [⟨0, 1, 5, 2592000, 0⟩], 6⟩ ⟨5, 1⟩
      = .ok (⟨[⟨1, "A", 100, false⟩], [⟨6, 1, 6, 6 + refreshLifetime, 6⟩], 7⟩, 6) ∧
    refreshTokenOp ⟨[⟨1, "A", 100, false⟩], [⟨6, 1, 6, 6 + refreshLifetime, 6⟩], 7⟩ ⟨5, 1⟩
      = .error ⟨401, "Refresh token expired or revoked"⟩ :=
  ⟨⟨by decide, by decide⟩, by rfl,
   refresh_single_use ⟨[⟨1, "A", 100, false⟩], [⟨0, 1, 5, 2592000, 0⟩], 6⟩ ⟨5, 1⟩
     ⟨[⟨1, "A", 100, false⟩], [⟨6, 1, 6, 6 + refreshLifetime, 6⟩], 7⟩ 6
     ⟨by decide, by decide⟩ (by rfl)⟩

/-! ### C4: refresh-token pruning keeps the 5 most recent rows -/

/-- The row inserted by one `_generateTokens` call. -/
def freshRow (st : AuthState) (uid : Nat) : TokenRow :=
  ⟨st.clock, uid, st.clock, st.clock + refreshLifetime, st.clock⟩

theorem issueSession_tokens (st : AuthState) (uid : Nat) :
    (issueSession st uid).1.tokens
      = pruneTokens (st.tokens ++ [freshRow st uid]) uid := rfl

theorem issueSession_clock (st : AuthState) (uid : Nat) :
    (issueSession st uid).1.clock = st.clock + 1 := rfl

theorem issueN_clock (uid : Nat) :
    ∀ (n : Nat) (st : AuthState), (issueN n st uid).clock = st.clock + n := by
  intro n
  induction n with
  | zero => intro st; rfl
  | succ m ih =>
    intro st
    show (issueN m (issueSession st uid).1 uid).clock = st.clock + (m + 1)
    rw [ih]
    rw [issueSession_clock]
    omega

theorem issueN_add (uid : Nat) (a : Nat) :
    ∀ (b : Nat) (st : AuthState),
      issueN (a + b) st uid = issueN a (issueN b st uid) uid := by
  intro b
  induction b with
  | zero => intro st; rfl
  | succ m ih =>
    intro st
    show issueN (a + m + 1) st uid = issueN a (issueN m (issueSession st uid).1 uid) uid
    rw [← ih]
    rfl

theorem mem_pruneTokens (toks : List TokenRow) (uid : Nat) (t : TokenRow)
    (h : t ∈ pruneTokens toks uid) :
    t ∈ toks ∧ (t.userId ≠ uid ∨
      toks.countP (fun s => s.userId == uid && decide (t.createdAt < s.createdAt)) < 5) := by
  obtain ⟨hmem, hp⟩ := List.mem_filter.mp h
  refine ⟨hmem, ?_⟩
  rcases Bool.or_eq_true _ _ |>.mp hp with h1 | h2
  · left
    simpa using h1
  · right
    simpa using h2

theorem pruneTokens_keep (toks : List TokenRow) (uid : Nat) (t : TokenRow)
    (hmem : t ∈ toks)
    (hcnt : toks.countP (fun s => s.userId == uid && decide (t.createdAt < s.createdAt)) < 5) :
    t ∈ pruneTokens toks uid := by
  refine List.mem_filter.mpr ⟨hmem, ?_⟩
  have : decide (toks.countP (fun s => s.userId == uid &&
      decide (t.createdAt < s.createdAt)) < 5) = true := by
    simpa using hcnt
  rw [this]
  simp

theorem WFA_issueSession (st : AuthState) (uid : Nat) (hwf : WFA st) :
    WFA (issueSession st uid).1 := by
  have happ : (st.tokens ++ [freshRow st uid]).Pairwise
      (fun a b => a.createdAt ≠ b.createdAt) := by
    rw [List.pairwise_append]
    refine ⟨hwf.2, by simp, ?_⟩
    intro a ha b hb
    have hb1 : b = freshRow st uid := by simpa using hb
    have := (hwf.1 a ha).1
    rw [hb1]
    show a.createdAt ≠ st.clock
    omega
  constructor
  · intro t ht
    rw [issueSession_tokens] at ht
    have hmem := (mem_pruneTokens _ _ _ ht).1
    rw [issueSession_clock]
    rcases List.mem_append.mp hmem with hold | hnew
    · have := hwf.1 t hold
      omega
    · have : t = freshRow st uid := by simpa using hnew
      rw [this]
      show st.clock < st.clock + 1 ∧ st.clock < st.clock + 1
      omega
  · rw [issueSession_tokens]
    exact happ.filter _

theorem WFA_issueN (uid : Nat) :
    ∀ (n : Nat) (st : AuthState), WFA st → WFA (issueN n st uid) := by
  intro n
  induction n with
  | zero => intro st h; exact h
  | succ m ih =>
    intro st h
    exact ih (issueSession st uid).1 (WFA_issueSession st uid h)

theorem issueN_succ_last (uid : Nat) :
    ∀ (n : Nat) (st : AuthState),
      issueN (n + 1) st uid = (issueSession (issueN n st uid) uid).1 := by
  intro n
  induction n with
  | zero => intro st; rfl
  | succ m ih =>
    intro st
    show issueN (m + 1) (issueSession st uid).1 uid = _
    rw [ih]
    rfl

/-- Counting distinct creation times inside an interval: in a list with
pairwise distinct `createdAt` all below `C`, at most `C - a - 1` rows are
strictly newer than `a`. -/
theorem countP_newer_le (l : List TokenRow) (uid a C : Nat)
    (hpw : l.Pairwise (fun x y => x.createdAt ≠ y.createdAt))
    (hub : ∀ t ∈ l, t.createdAt < C) :
    l.countP (fun s => s.userId == uid && decide (a < s.createdAt)) ≤ C - a - 1 := by
  rw [List.countP_eq_length_filter]
  have hnd : ((l.filter (fun s => s.userId == uid && decide (a < s.createdAt))).map
      (fun t => t.createdAt)).Nodup :=
    List.pairwise_map.mpr (hpw.filter _)
  have hsub : ((l.filter (fun s => s.userId == uid && decide (a < s.createdAt))).map
      (fun t => t.createdAt)).toFinset ⊆ Finset.Ioo a C := by
    intro x hx
    rw [List.mem_toFinset] at hx
    obtain ⟨t, ht, rfl⟩ := List.mem_map.mp hx
    have h1 := (List.mem_filter.mp ht).2
    have h2 := hub t (List.mem_of_mem_filter ht)
    rw [Finset.mem_Ioo]
    have h3 := ((Bool.and_eq_true _ _).mp h1).2
    have h4 : a < t.createdAt := by simpa using h3
    omega
  have h1 := Finset.card_le_card hsub
  rw [List.toFinset_card_of_nodup hnd, Nat.card_Ioo, List.length_map] at h1
  omega

/-- A list containing, for every `i` in `1..k`, a row created at `a + i` has
length at least `k`. -/
theorem length_ge_of_rows (l : List TokenRow) (a k : Nat)
    (h : ∀ i, 1 ≤ i → i ≤ k → ∃ t ∈ l, t.createdAt = a + i) : k ≤ l.length := by
  have hsub : Finset.Icc (a + 1) (a + k) ⊆ (l.map (fun t => t.createdAt)).toFinset := by
    intro x hx
    rw [Finset.mem_Icc] at hx
    obtain ⟨t, ht, hta⟩ := h (x - a) (by omega) (by omega)
    rw [List.mem_toFinset, List.mem_map]
    exact ⟨t, ht, by omega⟩
  have h1 := Finset.card_le_card hsub
  have h2 := (l.map (fun t => t.createdAt)).toFinset_card_le
  rw [Nat.card_Icc, List.length_map] at *
  omega

/-- Dual bound: if for every `i` in `1..k` the list has a row created at
`a + i` satisfying `p`, then `countP p` is at least `k`. -/
theorem countP_ge_of_rows (l : List TokenRow) (p : TokenRow → Bool) (a k : Nat)
    (h : ∀ i, 1 ≤ i → i ≤ k → ∃ t ∈ l, p t = true ∧ t.createdAt = a + i) :
    k ≤ l.countP p := by
  rw [List.countP_eq_length_filter]
  refine length_ge_of_rows _ a k ?_
  intro i h1 h2
  obtain ⟨t, ht, hp, hta⟩ := h i h1 h2
  exact ⟨t, List.mem_filter.mpr ⟨ht, hp⟩, hta⟩

theorem pre_pairwise (st : AuthState) (uid : Nat) (hwf : WFA st) :
    (st.tokens ++ [freshRow st uid]).Pairwise
      (fun a b => a.createdAt ≠ b.createdAt) := by
  rw [List.pairwise_append]
  refine ⟨hwf.2, by simp, ?_⟩
  intro a ha b hb
  have hb1 : b = freshRow st uid := by simpa using hb
  have := (hwf.1 a ha).1
  rw [hb1]
  show a.createdAt ≠ st.clock
  omega

theorem exists_min_createdAt :
    ∀ (l : List TokenRow), l ≠ [] →
      l.Pairwise (fun x y => x.createdAt ≠ y.createdAt) →
      ∃ t ∈ l, ∀ s ∈ l, s ≠ t → t.createdAt < s.createdAt := by
  intro l
  induction l with
  | nil => intro h; exact absurd rfl h
  | cons a as ih =>
    intro _ hpw
    obtain ⟨hhead, htail⟩ := List.pairwise_cons.mp hpw
    by_cases hnil : as = []
    · subst hnil
      refine ⟨a, List.mem_cons_self a [], ?_⟩
      intro s hs hne
      have : s = a := by simpa using hs
      exact absurd this hne
    · obtain ⟨t, htmem, htmin⟩ := ih hnil htail
      by_cases hlt : a.createdAt < t.createdAt
      · refine ⟨a, List.mem_cons_self a as, ?_⟩
        intro s hs hne
        rcases List.mem_cons.mp hs with heq | hs2
        · exact absurd heq hne
        · by_cases hst : s = t
          · rw [hst]; exact hlt
          · have := htmin s hs2 hst
            omega
      · have hneq := hhead t htmem
        have htlt : t.createdAt < a.createdAt := by omega
        refine ⟨t, List.mem_cons_of_mem a htmem, ?_⟩
        intro s hs hne
        rcases List.mem_cons.mp hs with heq | hs2
        · rw [heq]; exact htlt
        · exact htmin s hs2 hne

theorem countP_newer_ge_min (l : List TokenRow) (uid : Nat) (t : TokenRow)
    (hpw : l.Pairwise (fun x y => x.createdAt ≠ y.createdAt))
    (huid : ∀ s ∈ l, s.userId = uid)
    (ht : t ∈ l)
    (hmin : ∀ s ∈ l, s ≠ t → t.createdAt < s.createdAt) :
    l.length - 1 ≤ l.countP (fun s => s.userId == uid && decide (t.createdAt < s.createdAt)) := by
  set p := (fun s : TokenRow => s.userId == uid && decide (t.createdAt < s.createdAt))
    with hp
  have hlen := List.length_eq_countP_add_countP p l
  have hmono : l.countP (fun a => decide (¬p a = true))
      ≤ l.countP (fun a => a == t) := by
    refine List.countP_mono_left ?_
    intro s hs hnp
    have hnp2 : ¬(p s = true) := by simpa using hnp
    rw [hp] at hnp2
    have h1 : ¬ t.createdAt < s.createdAt := by
      intro hlt
      exact hnp2 (by simp [huid s hs, hlt])
    by_cases hst : s = t
    · simp [hst]
    · exact absurd (hmin s hs hst) h1
  have hnodup : l.Nodup := hpw.imp (fun hab heq => hab (by rw [heq]))
  have hcount : l.countP (fun a => a == t) ≤ 1 := by
    rw [← List.count_eq_countP]
    exact List.nodup_iff_count_le_one.mp hnodup t
  omega

theorem after_call_le5 (st : AuthState) (uid : Nat) (hwf : WFA st) :
    (tokensFor (issueSession st uid).1 uid).length ≤ 5 := by
  by_contra hgt
  push_neg at hgt
  set pre := st.tokens ++ [freshRow st uid] with hpre
  set lu := tokensFor (issueSession st uid).1 uid with hlu
  have hlu2 : lu = List.filter (fun t => t.userId == uid) (pruneTokens pre uid) := rfl
  have hwf2 : WFA (issueSession st uid).1 := WFA_issueSession st uid hwf
  have hpw_lu : lu.Pairwise (fun x y => x.createdAt ≠ y.createdAt) := by
    rw [hlu2]
    exact ((pre_pairwise st uid hwf).filter _).filter _
  have huid_lu : ∀ s ∈ lu, s.userId = uid := by
    intro s hs
    have := (List.mem_filter.mp hs).2
    simpa using this
  have hne : lu ≠ [] := by
    intro h
    rw [h] at hgt
    simp at hgt
  obtain ⟨t, htmem, htmin⟩ := exists_min_createdAt lu hne hpw_lu
  have hge := countP_newer_ge_min lu uid t hpw_lu huid_lu htmem htmin
  have htk : t ∈ pruneTokens pre uid := by
    rw [hlu2] at htmem
    exact List.mem_of_mem_filter htmem
  have hcnt := (mem_pruneTokens pre uid t htk).2
  have h5 : pre.countP (fun s => s.userId == uid && decide (t.createdAt < s.createdAt)) < 5 := by
    rcases hcnt with h | h
    · exact absurd (huid_lu t htmem) h
    · exact h
  have hsubl : lu.Sublist pre := by
    rw [hlu2]
    exact (List.filter_sublist _).trans (List.filter_sublist _)
  have hcle := hsubl.countP_le
    (fun s => s.userId == uid && decide (t.createdAt < s.createdAt))
  omega

theorem survive_step (st : AuthState) (uid : Nat) (t : TokenRow) (hwf : WFA st)
    (hmem : t ∈ st.tokens)
    (hcnt : st.tokens.countP
      (fun s => s.userId == uid && decide (t.createdAt < s.createdAt)) < 4) :
    t ∈ (issueSession st uid).1.tokens := by
  rw [issueSession_tokens]
  refine pruneTokens_keep _ _ _ (List.mem_append_left _ hmem) ?_
  rw [List.countP_append]
  have hone : List.countP
      (fun s => s.userId == uid && decide (t.createdAt < s.createdAt))
      [freshRow st uid] ≤ 1 := by
    by_cases h : ((freshRow st uid).userId == uid
        && decide (t.createdAt < (freshRow st uid).createdAt)) = true
    · simp [List.countP_cons, h]
    · simp [List.countP_cons, h]
  omega

theorem fresh_present (st : AuthState) (uid : Nat) (hwf : WFA st) :
    freshRow st uid ∈ (issueSession st uid).1.tokens := by
  rw [issueSession_tokens]
  refine pruneTokens_keep _ _ _ (List.mem_append_right _ (by simp)) ?_
  have hzero : (st.tokens ++ [freshRow st uid]).countP
      (fun s => s.userId == uid &&
        decide ((freshRow st uid).createdAt < s.createdAt)) = 0 := by
    rw [List.countP_eq_zero]
    intro s hs
    rcases List.mem_append.mp hs with hold | hnew
    · have hlt := (hwf.1 s hold).1
      simp only [Bool.and_eq_true, decide_eq_true_eq, not_and]
      intro _
      show ¬ (freshRow st uid).createdAt < s.createdAt
      show ¬ st.clock < s.createdAt
      omega
    · have heq : s = freshRow st uid := by simpa using hnew
      rw [heq]
      simp
  rw [hzero]
  omega

theorem survive_iter (uid : Nat) :
    ∀ (k : Nat) (st : AuthState) (t : TokenRow), WFA st → t ∈ st.tokens →
      t.userId = uid → st.clock + k ≤ t.createdAt + 5 →
      t ∈ (issueN k st uid).tokens := by
  intro k
  induction k with
  | zero => intro st t _ hmem _ _; exact hmem
  | succ m ih =>
    intro st t hwf hmem huid hck
    have hlt : t.createdAt < st.clock := (hwf.1 t hmem).1
    have hcnt : st.tokens.countP
        (fun s => s.userId == uid && decide (t.createdAt < s.createdAt)) < 4 := by
      have :=
        countP_newer_le st.tokens uid t.createdAt st.clock hwf.2
          (fun s hs => (hwf.1 s hs).1)
      omega
    have hstep := survive_step st uid t hwf hmem hcnt
    show t ∈ (issueN m (issueSession st uid).1 uid).tokens
    refine ih (issueSession st uid).1 t (WFA_issueSession st uid hwf) hstep huid ?_
    rw [issueSession_clock]
    omega

theorem rows_present (st : AuthState) (uid : Nat) (hwf : WFA st)
    (m i : Nat) (him : i < m) (hm5 : m ≤ i + 5) :
    (⟨st.clock + i, uid, st.clock + i, st.clock + i + refreshLifetime,
      st.clock + i⟩ : TokenRow) ∈ (issueN m st uid).tokens := by
  have hrow : (⟨st.clock + i, uid, st.clock + i, st.clock + i + refreshLifetime,
      st.clock + i⟩ : TokenRow) = freshRow (issueN i st uid) uid := by
    unfold freshRow
    rw [issueN_clock]
  have hwf_i : WFA (issueN i st uid) := WFA_issueN uid i st hwf
  have hpres : freshRow (issueN i st uid) uid ∈ (issueN (i + 1) st uid).tokens := by
    rw [issueN_succ_last]
    exact fresh_present (issueN i st uid) uid hwf_i
  have hm : m = (m - (i + 1)) + (i + 1) := by omega
  rw [hm, issueN_add]
  rw [hrow]
  refine survive_iter uid (m - (i + 1)) (issueN (i + 1) st uid)
    (freshRow (issueN i st uid) uid)
    (WFA_issueN uid (i + 1) st hwf) hpres rfl ?_
  rw [issueN_clock]
  show st.clock + (i + 1) + (m - (i + 1)) ≤ (issueN i st uid).clock + 5
  rw [issueN_clock]
  omega

/-- C4.  In a well-formed state, after `issueSession` runs 6 times for a user
(with no intervening refresh or logout) exactly 5 refresh-token rows remain
for that user, and they are precisely the 5 most recently created ones (their
creation ticks are the last 5 of the 6 calls).  Moreover every single
`issueSession` call inserts its one fresh row and then prunes all but the 5
most recently created: the fresh row is kept, at most 5 rows remain, no row
appears from nowhere, and every kept row is strictly newer than every pruned
one. -/
theorem issue_six_keeps_five (st : AuthState) (uid : Nat) (hwf : WFA st) :
    (tokensFor (issueN 6 st uid) uid).length = 5 ∧
    (∀ t ∈ tokensFor (issueN 6 st uid) uid,
      st.clock + 1 ≤ t.createdAt ∧ t.createdAt < st.clock + 6) ∧
    (∀ st2 : AuthState, WFA st2 →
      freshRow st2 uid ∈ tokensFor (issueSession st2 uid).1 uid ∧
      (tokensFor (issueSession st2 uid).1 uid).length ≤ 5 ∧
      (∀ a ∈ tokensFor (issueSession st2 uid).1 uid,
        a ∈ tokensFor st2 uid ∨ a = freshRow st2 uid) ∧
      (∀ a ∈ tokensFor (issueSession st2 uid).1 uid,
       ∀ b ∈ tokensFor st2 uid, b ∉ tokensFor (issueSession st2 uid).1 uid →
         b.createdAt < a.createdAt)) := by
  have h6 : issueN 6 st uid = (issueSession (issueN 5 st uid) uid).1 :=
    issueN_succ_last uid 5 st
  refine ⟨?_, ?_, ?_⟩
  · have hle : (tokensFor (issueN 6 st uid) uid).length ≤ 5 := by
      rw [h6]
      exact after_call_le5 (issueN 5 st uid) uid (WFA_issueN uid 5 st hwf)
    have hge : 5 ≤ (tokensFor (issueN 6 st uid) uid).length := by
      refine length_ge_of_rows _ st.clock 5 ?_
      intro i h1 h5
      refine ⟨⟨st.clock + i, uid, st.clock + i, st.clock + i + refreshLifetime,
        st.clock + i⟩, ?_, rfl⟩
      exact List.mem_filter.mpr
        ⟨rows_present st uid hwf 6 i (by omega) (by omega), by simp⟩
    omega
  · intro t ht
    have htm := List.mem_filter.mp ht
    have huidt : t.userId = uid := by simpa using htm.2
    have hub : t.createdAt < st.clock + 6 := by
      have h1 := ((WFA_issueN uid 6 st hwf).1 t htm.1).1
      rw [issueN_clock] at h1
      omega
    refine ⟨?_, hub⟩
    by_contra hlow
    push_neg at hlow
    have htm6 : t ∈ pruneTokens
        ((issueN 5 st uid).tokens ++ [freshRow (issueN 5 st uid) uid]) uid := by
      have h1 := htm.1
      rw [h6, issueSession_tokens] at h1
      exact h1
    have hkeep := (mem_pruneTokens _ _ _ htm6).2
    have hcnt5 : ((issueN 5 st uid).tokens ++ [freshRow (issueN 5 st uid) uid]).countP
        (fun s => s.userId == uid && decide (t.createdAt < s.createdAt)) < 5 := by
      rcases hkeep with h | h
      · exact absurd huidt h
      · exact h
    have hclock5 : (issueN 5 st uid).clock = st.clock + 5 := issueN_clock uid 5 st
    have hge5 : 5 ≤ ((issueN 5 st uid).tokens ++ [freshRow (issueN 5 st uid) uid]).countP
        (fun s => s.userId == uid && decide (t.createdAt < s.createdAt)) := by
      refine countP_ge_of_rows _ _ st.clock 5 ?_
      intro i hi1 hi5
      by_cases hi : i = 5
      · subst hi
        refine ⟨freshRow (issueN 5 st uid) uid,
          List.mem_append_right _ (by simp), ?_, ?_⟩
        · simp [freshRow, hclock5]
          omega
        · simp [freshRow, hclock5]
      · refine ⟨⟨st.clock + i, uid, st.clock + i, st.clock + i + refreshLifetime,
          st.clock + i⟩,
          List.mem_append_left _ (rows_present st uid hwf 5 i (by omega) (by omega)),
          ?_, rfl⟩
        simp
        omega
    omega
  · intro st2 hwf2
    refine ⟨?_, after_call_le5 st2 uid hwf2, ?_, ?_⟩
    · exact List.mem_filter.mpr ⟨fresh_present st2 uid hwf2, by simp [freshRow]⟩
    · intro a ha
      have ham := List.mem_filter.mp ha
      have ham2 : a ∈ pruneTokens (st2.tokens ++ [freshRow st2 uid]) uid := ham.1
      have hapre := (mem_pruneTokens _ _ _ ham2).1
      rcases List.mem_append.mp hapre with hold | hnew
      · exact Or.inl (List.mem_filter.mpr ⟨hold, ham.2⟩)
      · exact Or.inr (by simpa using hnew)
    · intro a ha b hb hbnot
      have hpwpre := pre_pairwise st2 uid hwf2
      have ham := List.mem_filter.mp ha
      have hau : a.userId = uid := by simpa using ham.2
      have ham2 : a ∈ pruneTokens (st2.tokens ++ [freshRow st2 uid]) uid := ham.1
      have hacnt := (mem_pruneTokens _ _ _ ham2).2
      have hacnt5 : (st2.tokens ++ [freshRow st2 uid]).countP
          (fun s => s.userId == uid && decide (a.createdAt < s.createdAt)) < 5 := by
        rcases hacnt with h | h
        · exact absurd hau h
        · exact h
      have hbm := List.mem_filter.mp hb
      have hbpre : b ∈ st2.tokens ++ [freshRow st2 uid] :=
        List.mem_append_left _ hbm.1
      have hbnk : b ∉ pruneTokens (st2.tokens ++ [freshRow st2 uid]) uid := by
        intro hbk
        exact hbnot (List.mem_filter.mpr ⟨hbk, hbm.2⟩)
      have hbcnt : 5 ≤ (st2.tokens ++ [freshRow st2 uid]).countP
          (fun s => s.userId == uid && decide (b.createdAt < s.createdAt)) := by
        by_contra hlt
        push_neg at hlt
        exact hbnk (pruneTokens_keep _ uid b hbpre hlt)
      have hab : a ≠ b := by
        intro h
        exact hbnk (h ▸ ham2)
      have hapre2 : a ∈ st2.tokens ++ [freshRow st2 uid] :=
        (mem_pruneTokens _ _ _ ham2).1
      have hcneq : a.createdAt ≠ b.createdAt :=
        hpwpre.forall (fun x y h => h.symm) hapre2 hbpre hab
      by_cases hx : a.createdAt < b.createdAt
      · exfalso
        have hmono : (st2.tokens ++ [freshRow st2 uid]).countP
            (fun s => s.userId == uid && decide (b.createdAt < s.createdAt))
            ≤ (st2.tokens ++ [freshRow st2 uid]).countP
            (fun s => s.userId == uid && decide (a.createdAt < s.createdAt)) := by
          refine List.countP_mono_left ?_
          intro s hs hp
          have h1 := (Bool.and_eq_true _ _).mp hp
          have h2 : b.createdAt < s.createdAt := by simpa using h1.2
          simp [h1.1]
          omega
        omega
      · omega

/-- Witness for C4: starting from the empty state, six calls for user 1 leave
exactly the five rows created at ticks 1 through 5. -/
theorem issue_six_keeps_five_witness :
    WFA ⟨[], [], 0⟩ ∧
    (tokensFor (issueN 6 ⟨[], [], 0⟩ 1) 1).length = 5 ∧
    (tokensFor (issueN 6 ⟨[], [], 0⟩ 1) 1).map (fun t => t.createdAt)
      = [1, 2, 3, 4, 5] :=
  ⟨⟨by decide, by decide⟩,
   (issue_six_keeps_five ⟨[], [], 0⟩ 1 ⟨by decide, by decide⟩).1,
   by decide⟩

end SkiStat
